import Mathlib

/-
Verification of the Proxmox resource-orchestration core of homelab-cli.

The definitions below are a shallow embedding of the TypeScript source:

* `waitForTaskFrom` / `waitForTask` embed `ProxmoxRepository.waitForTask`
  (the task poller).  The poller is modelled over an abstract status trace
  `poll : Nat → Option TaskStatusRec` giving the outcome of the k-th status
  query (`none` models a query that returned no task status).  Each loop
  iteration that continues polling sleeps one fixed 2000 ms tick, so the
  elapsed wall-clock time at the start of iteration k is `2000 * k`
  (status queries themselves are treated as instantaneous).
* `getNextAvailableVmid` embeds the gap-search VMID allocator of
  `ProxmoxRepository.getNextAvailableVmid`, applied to the list of numeric
  vmids extracted from the cluster-resource response.  The JavaScript
  `.sort((a, b) => a - b)` is embedded as `List.insertionSort (· ≤ ·)`;
  on natural numbers both produce the unique ascending reordering.
* `getResourceIPAddress` embeds `ProxmoxSSHService.getResourceIPAddress`;
  `resolveTarget` and `getResourceFQDN` model the IP-then-FQDN connection
  fallback (see their doc comments).
* `extractIPv4FromInterface`, `firstNonLoopbackIPv4`, `fetchVMIPAddress`,
  `resolveLoop` and `listResources` embed the guest-agent IP discovery and
  the sequential per-resource resolution loop of
  `ProxmoxRepository.listResources`.  `resolveLoop` additionally records a
  begin/end event trace for the per-resource guest-agent queries, making
  the sequential ordering of the loop visible to theorems.
-/

deriving instance DecidableEq for Except

/-! ## Task poller (ProxmoxRepository.waitForTask) -/

/-- Snapshot returned by one status query, `GET /nodes/{node}/tasks/{upid}/status`.
Both fields are dynamic JSON fields and may be absent. -/
structure TaskStatusRec where
  status : Option String
  exitstatus : Option String
deriving DecidableEq, Repr

/-- Outcome of `waitForTask`: success, a task-failed repository error
(carrying the rendered message and the raw `exitstatus` kept in the error
context), or a timeout repository error. -/
inductive TaskOutcome where
  | ok : TaskOutcome
  | failed (message : String) (exitstatus : Option String) : TaskOutcome
  | timedOut (message : String) : TaskOutcome
deriving DecidableEq, Repr

/-- Message of the timeout error, from
`new RepositoryError("Task timed out after " + timeoutMs + "ms", ...)`. -/
def timeoutMessage (timeoutMs : Nat) : String :=
  "Task timed out after " ++ toString timeoutMs ++ "ms"

/-- Message of the task-failed error, from
`new RepositoryError("Task failed: " + (exitstatus || "unknown error"), ...)`.
A JavaScript falsy `exitstatus` (absent or the empty string) renders as
"unknown error". -/
def taskFailedMessage (es : Option String) : String :=
  "Task failed: " ++ (match es with
    | some s => if s = "" then "unknown error" else s
    | none => "unknown error")

/-- The polling loop of `waitForTask`, started at iteration `k`.  Iteration k
first checks `Date.now() - startTime > timeoutMs` (elapsed time `2000 * k`),
then performs status query k; a missing status or a `running` status sleeps
one 2000 ms tick and continues; a terminal status returns success exactly for
`exitstatus === "OK"`.  The second component of the result is the iteration
index at which the call returned, i.e. the number of completed status
queries (and of completed 2000 ms sleeps) when it returned. -/
def waitForTaskFrom (timeoutMs : Nat) (poll : Nat → Option TaskStatusRec) (k : Nat) :
    TaskOutcome × Nat :=
  if _h : 2000 * k > timeoutMs then (.timedOut (timeoutMessage timeoutMs), k)
  else
    match poll k with
    | none => waitForTaskFrom timeoutMs poll (k + 1)
    | some ts =>
      if ts.status = some "running" then waitForTaskFrom timeoutMs poll (k + 1)
      else if ts.exitstatus = some "OK" then (.ok, k)
      else (.failed (taskFailedMessage ts.exitstatus) ts.exitstatus, k)
termination_by timeoutMs / 2000 + 1 - k
decreasing_by all_goals omega

/-- `waitForTask` with timeout `timeoutMs` (source default 300000 ms) over the
status trace `poll`: the polling loop started at iteration 0. -/
def waitForTask (timeoutMs : Nat) (poll : Nat → Option TaskStatusRec) :
    TaskOutcome × Nat :=
  waitForTaskFrom timeoutMs poll 0

/-- A status-query outcome on which the loop keeps polling: no status
returned, or a status of `"running"`. -/
def continuesB (o : Option TaskStatusRec) : Bool :=
  match o with
  | none => true
  | some ts => ts.status == some "running"

/-! ## VMID allocator (ProxmoxRepository.getNextAvailableVmid) -/

/-- Lookahead used by the allocator loop:
`i === vmids.length - 1 || vmids[i + 1] > minVmid`. -/
def nextExceedsMin : List Nat → Bool
  | [] => true
  | next :: _ => decide (100 < next)

/-- The gap-search loop of `getNextAvailableVmid` over the sorted vmid list.
At each element, `expected` is 100 for the first element and previous
element + 1 afterwards; a gap at `expected ≥ 100` is returned first-fit, and
a below-floor element whose successor is absent or above 100 returns the
floor 100.  Returns `none` when the loop finds no gap. -/
def vmidScan (expected : Nat) : List Nat → Option Nat
  | [] => none
  | current :: rest =>
    if expected < current ∧ 100 ≤ expected then some expected
    else if current < 100 ∧ nextExceedsMin rest = true then some 100
    else vmidScan (current + 1) rest

/-- The VMID allocator: sort the used vmids ascending, return 100 when none
exist, otherwise the first gap found by `vmidScan`, and failing that
`max (last + 1) 100`. -/
def getNextAvailableVmid (vmids : List Nat) : Nat :=
  let sorted := List.insertionSort (· ≤ ·) vmids
  if sorted.isEmpty then 100
  else
    match vmidScan 100 sorted with
    | some v => v
    | none => max (sorted.getLast?.getD 0 + 1) 100

/-- Specification predicate: `v` is the smallest integer ≥ 100 that is not
among the used ids. -/
def IsLeastAvailableVmid (used : List Nat) (v : Nat) : Prop :=
  100 ≤ v ∧ v ∉ used ∧ ∀ m, 100 ≤ m → m ∉ used → v ≤ m

/-! ## SSH service (ProxmoxSSHService) -/

/-- Resource kind: `"qemu"` (VM) or `"lxc"` (container). -/
inductive ResourceType where
  | qemu : ResourceType
  | lxc : ResourceType
deriving DecidableEq, Repr

/-- The ProxmoxVMDTO record produced by `listResources`:
`{ ipv4Address, name, node, status, vmid }`. -/
structure ProxmoxVMDTO where
  ipv4Address : Option String
  name : String
  node : String
  status : String
  vmid : Nat
deriving DecidableEq, Repr

/-- Repository-level failure of `listResources` (invalid or failed
cluster-resources response). -/
inductive RepositoryErr where
  | unexpectedFormat : RepositoryErr
deriving DecidableEq, Repr

/-- ServiceError outcomes of `ProxmoxSSHService.getResourceIPAddress`,
distinguished by which of its three failure branches produced them. -/
inductive SSHServiceError where
  | repoFailed (resourceType : ResourceType) : SSHServiceError
  | notFound (resourceType : ResourceType) (vmid : Nat) : SSHServiceError
  | unavailable (resourceType : ResourceType) (vmid : Nat) : SSHServiceError
deriving DecidableEq, Repr

/-- The user-facing resource-type name used in the service error messages:
`resourceType === "qemu" ? "VM" : "container"`. -/
def resourceTypeName (rt : ResourceType) : String :=
  match rt with
  | .qemu => "VM"
  | .lxc => "container"

/-- The raw resource-type string. -/
def resourceTypeStr (rt : ResourceType) : String :=
  match rt with
  | .qemu => "qemu"
  | .lxc => "lxc"

/-- Message texts of the three `getResourceIPAddress` failures, as built in
the source. -/
def SSHServiceError.message : SSHServiceError → String
  | .repoFailed rt =>
    "Failed to retrieve " ++ resourceTypeStr rt ++ " resources from Proxmox API"
  | .notFound rt vmid =>
    resourceTypeName rt ++ " with VMID " ++ toString vmid ++ " not found"
  | .unavailable rt vmid =>
    "Cannot connect to " ++ resourceTypeName rt ++ " " ++ toString vmid
      ++ ": IP address not available. Ensure " ++ resourceTypeName rt
      ++ " is running and guest agent is installed."

/-- `ProxmoxSSHService.getResourceIPAddress(vmid, resourceType)` applied to
the repository's `listResources` result: propagate a repository failure,
report not-found when no resource has the vmid, report unavailable when the
found resource's `ipv4Address` is JavaScript-falsy (`null` or the empty
string, from `if (!resource.ipv4Address)`), and otherwise succeed with the
stored address. -/
def getResourceIPAddress (repoResult : Except RepositoryErr (List ProxmoxVMDTO))
    (vmid : Nat) (rt : ResourceType) : Except SSHServiceError String :=
  match repoResult with
  | .error _ => .error (.repoFailed rt)
  | .ok resources =>
    match resources.find? (fun r => r.vmid == vmid) with
    | none => .error (.notFound rt vmid)
    | some r =>
      match r.ipv4Address with
      | none => .error (.unavailable rt vmid)
      | some s => if s = "" then .error (.unavailable rt vmid) else .ok s

/-- Connection strategy actually used, exposed for narration. -/
inductive ConnectionMethod where
  | ip : ConnectionMethod
  | fqdn : ConnectionMethod
deriving DecidableEq, Repr

/-- Resolved connection target: the SSH host string, the strategy that
produced it, and the originating resource id and kind. -/
structure ConnectionTarget where
  target : String
  method : ConnectionMethod
  vmid : Nat
  resourceType : ResourceType
deriving DecidableEq, Repr

/-- Failure of the connection orchestrator. -/
inductive ConnectionError where
  | notFound (resourceType : ResourceType) (vmid : Nat) : ConnectionError
  | repoFailed (resourceType : ResourceType) : ConnectionError
  | bothStrategiesFailed (resourceType : ResourceType) (vmid : Nat) : ConnectionError
deriving DecidableEq, Repr

/-- Modelled from the spec: `resolveFqdn` (§4.3) of the FQDN-fallback version
of `ProxmoxSSHService` (`getResourceFQDN`), whose implementation file is not
among the provided sources — only its tests, its command-layer callers and
the archived change proposal are.  It locates the resource the same way as
`getResourceIPAddress` and on success returns `name ++ ".home.sflab.io"`
(fixed DNS-suffix policy); it never fails with unavailable. -/
def getResourceFQDN (repoResult : Except RepositoryErr (List ProxmoxVMDTO))
    (vmid : Nat) (rt : ResourceType) : Except SSHServiceError String :=
  match repoResult with
  | .error _ => .error (.repoFailed rt)
  | .ok resources =>
    match resources.find? (fun r => r.vmid == vmid) with
    | none => .error (.notFound rt vmid)
    | some r => .ok (r.name ++ ".home.sflab.io")

/-- Modelled from the spec: `resolveTarget` (§4.4), the connection
orchestration performed by the FQDN-fallback version of
`ProxmoxSSHService.connectSSH` (not among the provided sources, see
`getResourceFQDN`).  Stage 1 tries IP resolution and uses it on success;
not-found (and a repository failure) propagates without fallback;
unavailable triggers exactly one FQDN resolution, whose failure yields the
combined both-strategies-failed error.  The second component counts the
FQDN-resolution invocations performed. -/
def resolveTarget (repoResult : Except RepositoryErr (List ProxmoxVMDTO))
    (vmid : Nat) (rt : ResourceType) :
    Except ConnectionError ConnectionTarget × Nat :=
  match getResourceIPAddress repoResult vmid rt with
  | .ok ip => (.ok ⟨ip, .ip, vmid, rt⟩, 0)
  | .error (.notFound rt0 v0) => (.error (.notFound rt0 v0), 0)
  | .error (.repoFailed rt0) => (.error (.repoFailed rt0), 0)
  | .error (.unavailable _ _) =>
    match getResourceFQDN repoResult vmid rt with
    | .ok fqdn => (.ok ⟨fqdn, .fqdn, vmid, rt⟩, 1)
    | .error _ => (.error (.bothStrategiesFailed rt vmid), 1)

/-! ## Guest-agent IP discovery and resource listing
(ProxmoxRepository.listResources) -/

/-- One entry of an interface's `ip-addresses` array; the dynamic JSON
fields `ip-address-type` and `ip-address` may be absent. -/
structure AgentIPAddress where
  ipAddressType : Option String
  ipAddress : Option String
deriving DecidableEq, Repr

/-- One guest-agent network interface: the dynamic fields `name` and
`ip-addresses` (the latter is `none` when absent or not an array). -/
structure AgentInterface where
  name : Option String
  ipAddresses : Option (List AgentIPAddress)
deriving DecidableEq, Repr

/-- Whether a lower-cased character sequence contains the substring "lo". -/
def charsContainLo : List Char → Bool
  | 'l' :: 'o' :: _ => true
  | _ :: rest => charsContainLo rest
  | [] => false

/-- The loopback-interface test of `fetchVMIPAddress`:
`iface.name && iface.name.toLowerCase().includes("lo")` (a missing or empty
name is falsy and is not treated as loopback). -/
def isLoopbackName : Option String → Bool
  | none => false
  | some s => s != "" && charsContainLo (s.data.map Char.toLower)

/-- `extractIPv4FromInterface`: the first entry of the interface's
`ip-addresses` array whose `ip-address-type` is `"ipv4"` and whose
`ip-address` is truthy (present and non-empty); `none` when the array is
absent or no such entry exists. -/
def extractIPv4FromInterface (iface : AgentInterface) : Option String :=
  match iface.ipAddresses with
  | none => none
  | some addrs =>
    match addrs.find? (fun a =>
        a.ipAddressType == some "ipv4"
          && (match a.ipAddress with | some s => s != "" | none => false)) with
    | none => none
    | some a => a.ipAddress

/-- The interface loop of `fetchVMIPAddress`: skip loopback-named
interfaces, return the first IPv4 address extracted from the rest. -/
def firstNonLoopbackIPv4 : List AgentInterface → Option String
  | [] => none
  | iface :: rest =>
    if isLoopbackName iface.name then firstNonLoopbackIPv4 rest
    else
      match extractIPv4FromInterface iface with
      | some ip => some ip
      | none => firstNonLoopbackIPv4 rest

/-- Stated from the spec's words, for comparison with the source-derived
`firstNonLoopbackIPv4`: the first IPv4-typed address found among the
non-loopback interfaces' address lists, in order. -/
def specFirstIPv4 (ifaces : List AgentInterface) : Option String :=
  ((ifaces.filter (fun i => ! isLoopbackName i.name)).filterMap
    extractIPv4FromInterface).head?

/-- Outcome of one guest-agent `network-get-interfaces` query: the call
threw (guest agent unreachable, resource stopped, ...), the response had no
`result` array, or a list of interfaces. -/
inductive AgentQueryResult where
  | failed : AgentQueryResult
  | invalid : AgentQueryResult
  | ok (result : List AgentInterface) : AgentQueryResult
deriving DecidableEq, Repr

/-- `fetchVMIPAddress` over the query outcome: a thrown query is caught and
an invalid response is checked, both yielding `none` instead of an error;
otherwise the first non-loopback IPv4 address. -/
def fetchVMIPAddress (q : AgentQueryResult) : Option String :=
  match q with
  | .failed => none
  | .invalid => none
  | .ok ifaces => firstNonLoopbackIPv4 ifaces

/-- One raw record of the `cluster.resources.$get({ type: "vm" })` response;
all fields are dynamic and may be absent. -/
structure RawResource where
  type : Option String
  template : Option Nat
  name : Option String
  node : Option String
  status : Option String
  vmid : Option Nat
deriving DecidableEq, Repr

/-- The type filter of `listResources`: qemu resources that are not
templates, or lxc resources. -/
def filterByType (rt : ResourceType) (resp : List RawResource) : List RawResource :=
  resp.filter (fun r =>
    match rt with
    | .qemu => r.type == some "qemu" && r.template != some 1
    | .lxc => r.type == some "lxc")

/-- DTO construction of `listResources`:
`{ ipv4Address, name: r.name || "", node: r.node || "", status: r.status || "", vmid: r.vmid || 0 }`. -/
def mkVMDTO (r : RawResource) (ip : Option String) : ProxmoxVMDTO :=
  ⟨ip, r.name.getD "", r.node.getD "", r.status.getD "", r.vmid.getD 0⟩

/-- Begin/end events of the per-resource guest-agent queries issued by the
resolution loop of `listResources`, tagged by the queried node and vmid. -/
inductive TraceEvent where
  | queryBegin (node : Option String) (vmid : Option Nat) : TraceEvent
  | queryEnd (node : Option String) (vmid : Option Nat) : TraceEvent
deriving DecidableEq, Repr

/-- The awaited per-resource loop of `listResources`: for each filtered
resource in order, perform (and complete) its guest-agent query, then build
its DTO.  Also records the begin/end event trace of the queries; the `await`
inside the `for` loop completes each query before the next one begins, so
each begin/end pair is emitted whole, in listing order. -/
def resolveLoop (agent : Option String → Option Nat → AgentQueryResult) :
    List RawResource → List ProxmoxVMDTO × List TraceEvent
  | [] => ([], [])
  | r :: rest =>
    let ip := fetchVMIPAddress (agent r.node r.vmid)
    let tail := resolveLoop agent rest
    (mkVMDTO r ip :: tail.1,
      .queryBegin r.node r.vmid :: .queryEnd r.node r.vmid :: tail.2)

/-- `ProxmoxRepository.listResources(resourceType)` over the raw
cluster-resources response (`none` models a missing or non-array response)
and the guest-agent behavior `agent`: filter by resource type, then resolve
addresses sequentially with `resolveLoop`. -/
def listResources (rt : ResourceType) (cluster : Option (List RawResource))
    (agent : Option String → Option Nat → AgentQueryResult) :
    Except RepositoryErr (List ProxmoxVMDTO) :=
  match cluster with
  | none => .error .unexpectedFormat
  | some resp => .ok (resolveLoop agent (filterByType rt resp)).1

/-- The guest-agent query event trace of a `listResources` call with a valid
cluster response. -/
def listResourcesTrace (rt : ResourceType) (cluster : List RawResource)
    (agent : Option String → Option Nat → AgentQueryResult) : List TraceEvent :=
  (resolveLoop agent (filterByType rt cluster)).2

/-! ## Concrete fixtures used by witness theorems -/

/-- Status trace that always reports a running task. -/
def pollRunning : Nat → Option TaskStatusRec := fun _ => some ⟨some "running", none⟩

/-- Status trace whose every query returns no status. -/
def pollAlwaysNone : Nat → Option TaskStatusRec := fun _ => none

/-- Status trace: running for two ticks, then terminal with exitstatus OK. -/
def pollTwoThenOK : Nat → Option TaskStatusRec := fun k =>
  if k < 2 then some ⟨some "running", none⟩ else some ⟨some "stopped", some "OK"⟩

/-- Status trace: immediately terminal with a non-OK exitstatus text. -/
def pollFailedText : Nat → Option TaskStatusRec := fun _ =>
  some ⟨some "stopped", some "some error"⟩

/-- Status trace: immediately terminal with an empty exitstatus. -/
def pollFailedEmpty : Nat → Option TaskStatusRec := fun _ =>
  some ⟨some "stopped", some ""⟩

/-- A listed resource whose stored ipv4Address is the empty string. -/
def emptyIpResource : ProxmoxVMDTO := ⟨some "", "web", "pve", "running", 100⟩

/-- A listed resource with a resolvable address. -/
def sampleVM : ProxmoxVMDTO := ⟨some "192.168.1.10", "test-vm", "pve", "running", 100⟩

/-- A listed resource with no address reported by the guest agent. -/
def noIpVM : ProxmoxVMDTO := ⟨none, "ubuntu-web", "pve", "running", 100⟩

/-- A loopback guest-agent interface. -/
def loIface : AgentInterface := ⟨some "lo", some [⟨some "ipv4", some "127.0.0.1"⟩]⟩

/-- A non-loopback guest-agent interface with an IPv6 then an IPv4 address. -/
def ethIface : AgentInterface :=
  ⟨some "eth0", some [⟨some "ipv6", some "fe80::1"⟩, ⟨some "ipv4", some "192.168.1.10"⟩]⟩

/-- A raw qemu cluster resource with the given vmid. -/
def rawVM (n : Nat) : RawResource :=
  ⟨some "qemu", none, some ("vm" ++ toString n), some "pve", some "running", some n⟩

/-- A guest-agent behavior whose every query fails. -/
def agentAllFail : Option String → Option Nat → AgentQueryResult := fun _ _ => .failed

/-! ## Task poller lemmas -/

/-- When the timeout has not been exceeded and query k keeps the loop
polling, the loop proceeds to iteration k + 1. -/
theorem waitFrom_advance (t : Nat) (poll : Nat → Option TaskStatusRec) (k : Nat)
    (h2 : 2000 * k ≤ t) (hc : continuesB (poll k) = true) :
    waitForTaskFrom t poll k = waitForTaskFrom t poll (k + 1) := by
  rw [waitForTaskFrom, dif_neg (by omega)]
  cases hpk : poll k with
  | none => simp only [hpk]
  | some ts =>
    have hrun : ts.status = some "running" := by
      rw [hpk] at hc
      simpa [continuesB] using hc
    simp only [hpk]
    rw [if_pos hrun]

/-- When every query below k keeps the loop polling and the timeout has not
been exceeded at k, the loop reaches iteration k. -/
theorem waitFrom_reach (t : Nat) (poll : Nat → Option TaskStatusRec) :
    ∀ k, (∀ j, j < k → continuesB (poll j) = true) → 2000 * k ≤ t →
      waitForTaskFrom t poll 0 = waitForTaskFrom t poll k
  | 0, _, _ => rfl
  | (k + 1), hj, ht => by
    rw [waitFrom_reach t poll k (fun j hjk => hj j (by omega)) (by omega)]
    exact waitFrom_advance t poll k (by omega) (hj k (by omega))

/-- A terminal status observed at iteration k before the timeout returns
immediately: success for exitstatus OK, the task-failed error otherwise. -/
theorem waitFrom_terminal (t : Nat) (poll : Nat → Option TaskStatusRec) (k : Nat)
    (ts : TaskStatusRec) (h2 : 2000 * k ≤ t) (hterm : poll k = some ts)
    (hrun : ts.status ≠ some "running") :
    waitForTaskFrom t poll k =
      if ts.exitstatus = some "OK" then (.ok, k)
      else (.failed (taskFailedMessage ts.exitstatus) ts.exitstatus, k) := by
  rw [waitForTaskFrom, dif_neg (by omega)]
  simp only [hterm]
  rw [if_neg hrun]

/-- When every query keeps the loop polling, the loop times out at iteration
`t / 2000 + 1`, the first whose elapsed time `2000 * k` exceeds `t`. -/
theorem waitFrom_timeout_all (t : Nat) (poll : Nat → Option TaskStatusRec)
    (hall : ∀ j, continuesB (poll j) = true) :
    ∀ d k, t / 2000 + 1 - k = d → k ≤ t / 2000 + 1 →
      waitForTaskFrom t poll k = (.timedOut (timeoutMessage t), t / 2000 + 1) := by
  intro d
  induction d with
  | zero =>
    intro k hd hk
    have hk2 : k = t / 2000 + 1 := by omega
    subst hk2
    rw [waitForTaskFrom, dif_pos (by omega)]
  | succ d ih =>
    intro k hd hk
    rw [waitFrom_advance t poll k (by omega) (hall k)]
    exact ih (k + 1) (by omega) (by omega)

/-- C3: for every polling run of waitForTask that observes a terminal task
status (status not equal to "running") at some query k before the timeout
elapses, the call returns success if and only if the reported exitstatus is
the literal string "OK". -/
theorem waitForTask_terminal_ok_iff (t : Nat) (poll : Nat → Option TaskStatusRec)
    (k : Nat) (ts : TaskStatusRec)
    (hreach : ∀ j, j < k → continuesB (poll j) = true)
    (htime : 2000 * k ≤ t)
    (hterm : poll k = some ts)
    (hrun : ts.status ≠ some "running") :
    (waitForTask t poll).1 = TaskOutcome.ok ↔ ts.exitstatus = some "OK" := by
  rw [waitForTask, waitFrom_reach t poll k hreach htime,
    waitFrom_terminal t poll k ts htime hterm hrun]
  by_cases hok : ts.exitstatus = some "OK"
  · simp [hok]
  · simp [hok]

/-- C3 witness: a task that is running for two ticks and then terminal with
exitstatus "OK" within a 300000 ms timeout succeeds. -/
theorem waitForTask_terminal_ok_iff_witness :
    (waitForTask 300000 pollTwoThenOK).1 = TaskOutcome.ok ↔
      (⟨some "stopped", some "OK"⟩ : TaskStatusRec).exitstatus = some "OK" :=
  waitForTask_terminal_ok_iff 300000 pollTwoThenOK 2 ⟨some "stopped", some "OK"⟩
    (by decide) (by omega) rfl (by decide)

/-- C4: a task whose reported status never leaves "running" makes
waitForTask return the timeout failure; the loop performs at most
ceil(t / 2000) + 1 status queries (the returned iteration index counts the
completed queries) and returns at elapsed time at most t + 2000 ms. -/
theorem waitForTask_never_terminal_times_out (t : Nat)
    (poll : Nat → Option TaskStatusRec)
    (hall : ∀ j, ∃ ts, poll j = some ts ∧ ts.status = some "running") :
    (waitForTask t poll).1 = TaskOutcome.timedOut (timeoutMessage t)
    ∧ (waitForTask t poll).2 ≤ (t + 1999) / 2000 + 1
    ∧ 2000 * (waitForTask t poll).2 ≤ t + 2000 := by
  have hcont : ∀ j, continuesB (poll j) = true := by
    intro j
    rcases hall j with ⟨ts, hts, hst⟩
    simp [continuesB, hts, hst]
  have hmain := waitFrom_timeout_all t poll hcont (t / 2000 + 1 - 0) 0 rfl (by omega)
  rw [waitForTask, hmain]
  refine ⟨rfl, ?_, ?_⟩
  · show t / 2000 + 1 ≤ (t + 1999) / 2000 + 1
    omega
  · show 2000 * (t / 2000 + 1) ≤ t + 2000
    omega

/-- C4 witness: with a 3000 ms timeout and a permanently running task, the
call times out after 2 status queries, at elapsed time 4000 ms ≤ 5000 ms. -/
theorem waitForTask_never_terminal_times_out_witness :
    (waitForTask 3000 pollRunning).1 = TaskOutcome.timedOut (timeoutMessage 3000)
    ∧ (waitForTask 3000 pollRunning).2 ≤ (3000 + 1999) / 2000 + 1
    ∧ 2000 * (waitForTask 3000 pollRunning).2 ≤ 3000 + 2000 :=
  waitForTask_never_terminal_times_out 3000 pollRunning
    (fun _ => ⟨⟨some "running", none⟩, rfl, rfl⟩)

/-- C5 counterexample: a terminal task with the empty exitstatus does not
carry the raw (empty) exitstatus text in its diagnostic message; the message
is "Task failed: unknown error", not "Task failed: ". -/
theorem waitForTask_empty_exitstatus_counterexample :
    (waitForTask 3000 pollFailedEmpty).1 =
      TaskOutcome.failed "Task failed: unknown error" (some "")
    ∧ (waitForTask 3000 pollFailedEmpty).1 ≠
      TaskOutcome.failed ("Task failed: " ++ "") (some "") := by
  have h := waitFrom_terminal 3000 pollFailedEmpty 0 ⟨some "stopped", some ""⟩
    (by omega) rfl (by decide)
  rw [waitForTask, h]
  refine ⟨by rfl, by decide⟩

/-- C5 (amended): a terminal non-OK status makes waitForTask return the
task-failed error carrying the raw exitstatus in its context and the
message "Task failed: " followed by the exitstatus text when that text is
present and non-empty; an absent or empty exitstatus is rendered as
"unknown error" instead (from the JavaScript "exitstatus || 'unknown
error'"). -/
theorem waitForTask_failed_diagnostic (t : Nat) (poll : Nat → Option TaskStatusRec)
    (k : Nat) (ts : TaskStatusRec)
    (hreach : ∀ j, j < k → continuesB (poll j) = true)
    (htime : 2000 * k ≤ t)
    (hterm : poll k = some ts)
    (hrun : ts.status ≠ some "running")
    (hnok : ts.exitstatus ≠ some "OK") :
    (waitForTask t poll).1 =
      TaskOutcome.failed (taskFailedMessage ts.exitstatus) ts.exitstatus
    ∧ (∀ s, s ≠ "" → taskFailedMessage (some s) = "Task failed: " ++ s)
    ∧ taskFailedMessage (some "") = "Task failed: unknown error"
    ∧ taskFailedMessage none = "Task failed: unknown error" := by
  refine ⟨?_, ?_, rfl, rfl⟩
  · rw [waitForTask, waitFrom_reach t poll k hreach htime,
      waitFrom_terminal t poll k ts htime hterm hrun, if_neg hnok]
  · intro s hs
    simp [taskFailedMessage, hs]

/-- C5 witness: a terminal task with exitstatus "some error" fails carrying
that raw text as its diagnostic. -/
theorem waitForTask_failed_diagnostic_witness :
    (waitForTask 3000 pollFailedText).1 =
      TaskOutcome.failed (taskFailedMessage (some "some error")) (some "some error")
    ∧ taskFailedMessage (some "some error") = "Task failed: " ++ "some error" :=
  have h := waitForTask_failed_diagnostic 3000 pollFailedText 0
    ⟨some "stopped", some "some error"⟩ (by decide) (by omega) rfl (by decide) (by decide)
  ⟨h.1, h.2.1 "some error" (by decide)⟩

/-- C6: a status query that yields no status leaves the poller polling: it
waits one tick and queries again instead of failing, and when every query
yields no status the retries end in the timeout failure once the timeout is
exceeded. -/
theorem waitForTask_transient_query_retry :
    (∀ (t : Nat) (poll : Nat → Option TaskStatusRec) (k : Nat),
      2000 * k ≤ t → poll k = none →
        waitForTaskFrom t poll k = waitForTaskFrom t poll (k + 1))
    ∧ (∀ (t : Nat) (poll : Nat → Option TaskStatusRec), (∀ j, poll j = none) →
        (waitForTask t poll).1 = TaskOutcome.timedOut (timeoutMessage t)) := by
  constructor
  · intro t poll k h2 hpk
    exact waitFrom_advance t poll k h2 (by simp [continuesB, hpk])
  · intro t poll hall
    have h := waitFrom_timeout_all t poll
      (fun j => by simp [continuesB, hall j]) (t / 2000 + 1 - 0) 0 rfl (by omega)
    rw [waitForTask, h]

/-- C6 witness: with a 3000 ms timeout and every query yielding no status,
query 0 is retried after one tick, and the run ends in the timeout failure. -/
theorem waitForTask_transient_query_retry_witness :
    waitForTaskFrom 3000 pollAlwaysNone 0 = waitForTaskFrom 3000 pollAlwaysNone 1
    ∧ (waitForTask 3000 pollAlwaysNone).1 = TaskOutcome.timedOut (timeoutMessage 3000) :=
  ⟨waitForTask_transient_query_retry.1 3000 pollAlwaysNone 0 (by omega) rfl,
    waitForTask_transient_query_retry.2 3000 pollAlwaysNone (fun _ => rfl)⟩

/-! ## VMID allocator lemmas -/

/-- In a list sorted by ≤, every element is at most the last one. -/
theorem pairwise_le_getLastAux : ∀ (l : List Nat) (h : l ≠ []),
    l.Pairwise (· ≤ ·) → ∀ x ∈ l, x ≤ l.getLast h
  | [a], _, _, x, hx => by
    simp at hx
    simp [hx, List.getLast]
  | a :: b :: t, _, hp, x, hx => by
    have hp1 := (List.pairwise_cons.mp hp).1
    have hp2 := (List.pairwise_cons.mp hp).2
    rw [List.getLast_cons (by simp)]
    rw [List.mem_cons] at hx
    rcases hx with rfl | hx
    · exact hp1 _ (List.getLast_mem (by simp))
    · exact pairwise_le_getLastAux (b :: t) (by simp) hp2 x hx

/-- Correctness invariant of the allocator's scan loop.  The loop is called
on the suffix `r` of the sorted vmid list after consuming a prefix `p`, with
`expected` value `e`.  Under the loop invariants — `r` sorted, `p` entirely
below `r`, `p` entirely below `e`, every candidate in `[100, e)` already
consumed, and (when `e < 100`) the next element at most 100 — a gap returned
by the scan is the least available vmid of the whole list, and a scan that
finds no gap leaves every available candidate above all elements. -/
theorem vmidScan_spec (r : List Nat) : ∀ (p : List Nat) (e : Nat),
    r.Pairwise (· ≤ ·) →
    (∀ x ∈ p, ∀ y ∈ r, x ≤ y) →
    (∀ x ∈ p, x < e) →
    (∀ m, 100 ≤ m → m < e → m ∈ p) →
    (e < 100 → ∃ c r2, r = c :: r2 ∧ c ≤ 100) →
    (∀ v, vmidScan e r = some v → IsLeastAvailableVmid (p ++ r) v) ∧
    (vmidScan e r = none →
      ∀ m, 100 ≤ m → m ∉ p ++ r → ∀ x ∈ p ++ r, x < m) := by
  induction r with
  | nil =>
    intro p e _hs _hpr hpe hA _hE
    constructor
    · intro v hv
      simp [vmidScan] at hv
    · intro _ m hm hmnot x hx
      simp only [List.append_nil] at hmnot hx
      by_cases hme : m < e
      · exact absurd (hA m hm hme) hmnot
      · exact lt_of_lt_of_le (hpe x hx) (by omega)
  | cons c r2 ih =>
    intro p e hs hpr hpe hA hE
    have hcr2 : ∀ y ∈ r2, c ≤ y := (List.pairwise_cons.mp hs).1
    have hs2 : r2.Pairwise (· ≤ ·) := (List.pairwise_cons.mp hs).2
    by_cases h1 : e < c ∧ 100 ≤ e
    · -- first branch: gap at e, return some e
      constructor
      · intro v hv
        rw [vmidScan, if_pos h1] at hv
        have hv2 : v = e := (Option.some.inj hv).symm
        subst hv2
        refine ⟨h1.2, ?_, ?_⟩
        · simp only [List.mem_append, List.mem_cons]
          rintro (hp | rfl | hr)
          · exact absurd (hpe _ hp) (lt_irrefl v)
          · exact absurd h1.1 (lt_irrefl v)
          · exact absurd (lt_of_lt_of_le h1.1 (hcr2 _ hr)) (lt_irrefl v)
        · intro m hm hmnot
          by_cases hme : m < v
          · refine absurd ?_ hmnot
            simp only [List.mem_append]
            exact Or.inl (hA m hm hme)
          · omega
      · intro hnone
        rw [vmidScan, if_pos h1] at hnone
        exact absurd hnone (by simp)
    · by_cases h2 : c < 100 ∧ nextExceedsMin r2 = true
      · -- second branch: floor 100 is free, return some 100
        constructor
        · intro v hv
          rw [vmidScan, if_neg h1, if_pos h2] at hv
          have hv2 : v = 100 := (Option.some.inj hv).symm
          subst hv2
          refine ⟨le_refl _, ?_, fun m hm _ => hm⟩
          simp only [List.mem_append, List.mem_cons]
          rintro (hp | hc | hr)
          · have := hpr _ hp c (by simp)
            omega
          · omega
          · cases r2 with
            | nil => simp at hr
            | cons n r3 =>
              have hn : 100 < n := by
                have := h2.2
                simp [nextExceedsMin] at this
                exact this
              have hnr3 : ∀ y ∈ r3, n ≤ y := (List.pairwise_cons.mp hs2).1
              rw [List.mem_cons] at hr
              rcases hr with hr | hr
              · omega
              · exact absurd (hnr3 _ hr) (by omega)
        · intro hnone
          rw [vmidScan, if_neg h1, if_pos h2] at hnone
          exact absurd hnone (by simp)
      · -- third branch: consume c, recurse with expected c + 1
        have heq : vmidScan e (c :: r2) = vmidScan (c + 1) r2 := by
          rw [vmidScan, if_neg h1, if_neg h2]
        have hpr2 : ∀ x ∈ p ++ [c], ∀ y ∈ r2, x ≤ y := by
          intro x hx y hy
          simp only [List.mem_append, List.mem_singleton] at hx
          rcases hx with hx | rfl
          · exact hpr x hx y (List.mem_cons_of_mem c hy)
          · exact hcr2 y hy
        have hpe2 : ∀ x ∈ p ++ [c], x < c + 1 := by
          intro x hx
          simp only [List.mem_append, List.mem_singleton] at hx
          rcases hx with hx | rfl
          · have := hpr x hx c (by simp)
            omega
          · omega
        have hA2 : ∀ m, 100 ≤ m → m < c + 1 → m ∈ p ++ [c] := by
          intro m hm hmc
          simp only [List.mem_append, List.mem_singleton]
          by_cases hmc2 : m = c
          · exact Or.inr hmc2
          · refine Or.inl ?_
            rcases not_and_or.mp h1 with h1a | h1b
            · exact hA m hm (by omega)
            · rcases hE (by omega) with ⟨c0, r0, heq0, hc0⟩
              have hcc0 : c = c0 := by
                injection heq0
              exact absurd hm (by omega)
        have hE2 : c + 1 < 100 → ∃ c1 r3, r2 = c1 :: r3 ∧ c1 ≤ 100 := by
          intro hc1
          rcases not_and_or.mp h2 with h2a | h2b
          · exact absurd (by omega) h2a
          · cases r2 with
            | nil => exact absurd rfl h2b
            | cons n r3 =>
              refine ⟨n, r3, rfl, ?_⟩
              simp [nextExceedsMin] at h2b
              omega
        have hrec := ih (p ++ [c]) (c + 1) hs2 hpr2 hpe2 hA2 hE2
        have hlist : (p ++ [c]) ++ r2 = p ++ c :: r2 := by simp
        rw [heq]
        constructor
        · intro v hv
          have := hrec.1 v hv
          rwa [hlist] at this
        · intro hnone
          have := hrec.2 hnone
          rwa [hlist] at this

/-- C2: for every finite collection of used ids, getNextAvailableVmid
returns the smallest integer ≥ 100 not present; in particular the empty
collection yields 100, the ids 100, 101, 103 yield 102, the ids 50, 60
yield 100, and the contiguous ids 100..150 yield 151. -/
theorem getNextAvailableVmid_least :
    (∀ used : List Nat, IsLeastAvailableVmid used (getNextAvailableVmid used))
    ∧ getNextAvailableVmid [] = 100
    ∧ getNextAvailableVmid [100, 101, 103] = 102
    ∧ getNextAvailableVmid [50, 60] = 100
    ∧ getNextAvailableVmid (List.range' 100 51) = 151 := by
  refine ⟨?_, by decide, by decide, by decide, by decide⟩
  intro used
  have hperm : (List.insertionSort (· ≤ ·) used).Perm used :=
    List.perm_insertionSort _ used
  have hmem : ∀ a, a ∈ List.insertionSort (· ≤ ·) used ↔ a ∈ used :=
    fun a => hperm.mem_iff
  have hsorted : (List.insertionSort (· ≤ ·) used).Pairwise (· ≤ ·) :=
    List.sorted_insertionSort _ used
  by_cases hnil : List.insertionSort (· ≤ ·) used = []
  · have husede : used = [] := (hnil ▸ hperm.symm).eq_nil
    subst husede
    refine ⟨le_refl _, by simp, fun m hm _ => hm⟩
  · have hspec := vmidScan_spec (List.insertionSort (· ≤ ·) used) [] 100 hsorted
      (by simp) (by simp) (fun m hm hlt => absurd hm (by omega))
      (fun h => absurd h (by omega))
    have hne : (List.insertionSort (· ≤ ·) used).isEmpty = false := by
      simpa [List.isEmpty_iff] using hnil
    cases hscan : vmidScan 100 (List.insertionSort (· ≤ ·) used) with
    | some v =>
      have hleast := hspec.1 v hscan
      simp only [List.nil_append] at hleast
      have hres : getNextAvailableVmid used = v := by
        rw [getNextAvailableVmid]
        simp only [hne, Bool.false_eq_true, if_false, hscan]
      rw [hres]
      refine ⟨hleast.1, fun h => hleast.2.1 ((hmem v).mpr h), ?_⟩
      intro m hm hnot
      exact hleast.2.2 m hm (fun hin => hnot ((hmem m).mp hin))
    | none =>
      have hforall := hspec.2 hscan
      simp only [List.nil_append] at hforall
      have hlast : (List.insertionSort (· ≤ ·) used).getLast? =
          some ((List.insertionSort (· ≤ ·) used).getLast hnil) :=
        List.getLast?_eq_getLast _ hnil
      have hres : getNextAvailableVmid used =
          max ((List.insertionSort (· ≤ ·) used).getLast hnil + 1) 100 := by
        rw [getNextAvailableVmid]
        simp only [hne, Bool.false_eq_true, if_false, hscan, hlast, Option.getD_some]
      rw [hres]
      have hMmax : ∀ x ∈ List.insertionSort (· ≤ ·) used,
          x ≤ (List.insertionSort (· ≤ ·) used).getLast hnil :=
        pairwise_le_getLastAux _ hnil hsorted
      refine ⟨le_max_right _ _, ?_, ?_⟩
      · intro hmemused
        have hx := hMmax _ ((hmem _).mpr hmemused)
        have h1 : (List.insertionSort (· ≤ ·) used).getLast hnil + 1 ≤
            max ((List.insertionSort (· ≤ ·) used).getLast hnil + 1) 100 :=
          le_max_left _ _
        omega
      · intro m hm hnotin
        have hxm : ∀ x ∈ List.insertionSort (· ≤ ·) used, x < m :=
          hforall m hm (fun hin => hnotin ((hmem m).mp hin))
        have hMm : (List.insertionSort (· ≤ ·) used).getLast hnil < m :=
          hxm _ (List.getLast_mem hnil)
        exact max_le (by omega) hm

/-! ## SSH service theorems -/

/-- C7 counterexample: a resource present in the listing whose stored
ipv4Address is the empty string (so not absent) is nonetheless reported
with the unavailable error rather than succeeding with the stored address. -/
theorem getResourceIPAddress_empty_ip_counterexample :
    [emptyIpResource].find? (fun x => x.vmid == 100) = some emptyIpResource
    ∧ emptyIpResource.ipv4Address ≠ none
    ∧ getResourceIPAddress (.ok [emptyIpResource]) 100 .qemu ≠ .ok ""
    ∧ getResourceIPAddress (.ok [emptyIpResource]) 100 .qemu =
        .error (.unavailable .qemu 100) := by
  refine ⟨rfl, by decide, by decide, rfl⟩

/-- C7 (amended): given a successful listing, getResourceIPAddress fails
with the not-found error exactly when no resource with the vmid is in the
collection, fails with the distinct unavailable error exactly when the
found resource's ipv4Address is absent or the empty string, and otherwise
succeeds returning exactly the resource's stored (non-empty) ipv4Address. -/
theorem getResourceIPAddress_outcome (resources : List ProxmoxVMDTO)
    (vmid : Nat) (rt : ResourceType) :
    (getResourceIPAddress (.ok resources) vmid rt = .error (.notFound rt vmid) ↔
      resources.find? (fun r => r.vmid == vmid) = none)
    ∧ (getResourceIPAddress (.ok resources) vmid rt = .error (.unavailable rt vmid) ↔
      ∃ r, resources.find? (fun x => x.vmid == vmid) = some r ∧
        (r.ipv4Address = none ∨ r.ipv4Address = some ""))
    ∧ (∀ s, getResourceIPAddress (.ok resources) vmid rt = .ok s ↔
      ∃ r, resources.find? (fun x => x.vmid == vmid) = some r ∧
        r.ipv4Address = some s ∧ s ≠ "") := by
  cases hfind : resources.find? (fun r => r.vmid == vmid) with
  | none =>
    simp [getResourceIPAddress, hfind]
  | some r =>
    cases hip : r.ipv4Address with
    | none =>
      simp [getResourceIPAddress, hfind, hip]
    | some s0 =>
      by_cases hs0 : s0 = ""
      · subst hs0
        simp [getResourceIPAddress, hfind, hip]
      · simp [getResourceIPAddress, hfind, hip, hs0]

/-- C10: whenever getResourceIPAddress succeeds the returned address is a
non-empty string, and a resource whose ipv4Address field is the empty
string is reported with the unavailable error exactly as one whose field is
absent. -/
theorem getResourceIPAddress_success_nonempty :
    (∀ (repoResult : Except RepositoryErr (List ProxmoxVMDTO)) (vmid : Nat)
      (rt : ResourceType) (s : String),
      getResourceIPAddress repoResult vmid rt = .ok s → s ≠ "")
    ∧ (∀ (resources : List ProxmoxVMDTO) (vmid : Nat) (rt : ResourceType)
        (r : ProxmoxVMDTO),
      resources.find? (fun x => x.vmid == vmid) = some r →
      r.ipv4Address = some "" →
      getResourceIPAddress (.ok resources) vmid rt = .error (.unavailable rt vmid))
    ∧ (∀ (resources : List ProxmoxVMDTO) (vmid : Nat) (rt : ResourceType)
        (r : ProxmoxVMDTO),
      resources.find? (fun x => x.vmid == vmid) = some r →
      r.ipv4Address = none →
      getResourceIPAddress (.ok resources) vmid rt = .error (.unavailable rt vmid)) := by
  refine ⟨?_, ?_, ?_⟩
  · intro repoResult vmid rt s h
    cases repoResult with
    | error e => simp [getResourceIPAddress] at h
    | ok resources =>
      cases hfind : resources.find? (fun x => x.vmid == vmid) with
      | none => simp [getResourceIPAddress, hfind] at h
      | some r =>
        cases hip : r.ipv4Address with
        | none => simp [getResourceIPAddress, hfind, hip] at h
        | some s0 =>
          by_cases hs0 : s0 = ""
          · simp [getResourceIPAddress, hfind, hip, hs0] at h
          · simp [getResourceIPAddress, hfind, hip, hs0] at h
            rw [← h]
            exact hs0
  · intro resources vmid rt r hfind hip
    simp [getResourceIPAddress, hfind, hip]
  · intro resources vmid rt r hfind hip
    simp [getResourceIPAddress, hfind, hip]

/-- C10 witness: a successful lookup returns the non-empty stored address,
and an empty-string ipv4Address yields the unavailable error. -/
theorem getResourceIPAddress_success_nonempty_witness :
    ("192.168.1.10" : String) ≠ ""
    ∧ getResourceIPAddress (.ok [emptyIpResource]) 100 .lxc =
        .error (.unavailable .lxc 100) :=
  ⟨getResourceIPAddress_success_nonempty.1 (.ok [sampleVM]) 100 .qemu
      "192.168.1.10" rfl,
    getResourceIPAddress_success_nonempty.2.1 [emptyIpResource] 100 .lxc
      emptyIpResource rfl rfl⟩

/-- C1: for a resource present in its kind's collection with an absent
ipv4Address, the connection operation performs FQDN resolution exactly once
and proceeds with the FQDN-shaped target built from the resource's name
followed by ".home.sflab.io", rather than failing on the unavailable IP. -/
theorem resolveTarget_fqdn_fallback (resources : List ProxmoxVMDTO)
    (vmid : Nat) (rt : ResourceType) (r : ProxmoxVMDTO)
    (hfind : resources.find? (fun x => x.vmid == vmid) = some r)
    (hip : r.ipv4Address = none) :
    resolveTarget (.ok resources) vmid rt =
      (.ok ⟨r.name ++ ".home.sflab.io", .fqdn, vmid, rt⟩, 1) := by
  simp [resolveTarget, getResourceIPAddress, getResourceFQDN, hfind, hip]

/-- C1 witness: a listed VM named "ubuntu-web" with no reported address is
connected to via the single FQDN fallback "ubuntu-web.home.sflab.io". -/
theorem resolveTarget_fqdn_fallback_witness :
    resolveTarget (.ok [noIpVM]) 100 .qemu =
      (.ok ⟨"ubuntu-web" ++ ".home.sflab.io", ConnectionMethod.fqdn, 100,
        ResourceType.qemu⟩, 1) :=
  resolveTarget_fqdn_fallback [noIpVM] 100 .qemu noIpVM rfl rfl

/-! ## Guest-agent discovery and listing theorems -/

/-- The source's interface loop computes the spec-shaped first IPv4 address:
the head of the IPv4 extractions of the non-loopback interfaces, in order. -/
theorem firstNonLoopback_eq_spec (ifaces : List AgentInterface) :
    firstNonLoopbackIPv4 ifaces = specFirstIPv4 ifaces := by
  induction ifaces with
  | nil => rfl
  | cons i rest ih =>
    by_cases hlo : isLoopbackName i.name = true
    · simp [firstNonLoopbackIPv4, specFirstIPv4, hlo, List.filter_cons]
      simpa [specFirstIPv4] using ih
    · cases hex : extractIPv4FromInterface i with
      | none =>
        simp [firstNonLoopbackIPv4, specFirstIPv4, hlo, hex, List.filter_cons]
        simpa [specFirstIPv4] using ih
      | some ip =>
        simp [firstNonLoopbackIPv4, specFirstIPv4, hlo, hex, List.filter_cons]

/-- The first component of the resolution loop: one DTO per filtered
resource, in order, each carrying the outcome of its own guest-agent query. -/
theorem resolveLoop_fst (agent : Option String → Option Nat → AgentQueryResult) :
    ∀ rs : List RawResource,
      (resolveLoop agent rs).1 =
        rs.map (fun r => mkVMDTO r (fetchVMIPAddress (agent r.node r.vmid)))
  | [] => rfl
  | r :: rest => by
    simp [resolveLoop, resolveLoop_fst agent rest]

/-- The query trace of the resolution loop distributes over list append. -/
theorem resolveLoop_trace_append (agent : Option String → Option Nat → AgentQueryResult) :
    ∀ xs ys : List RawResource,
      (resolveLoop agent (xs ++ ys)).2 =
        (resolveLoop agent xs).2 ++ (resolveLoop agent ys).2
  | [], ys => rfl
  | x :: xs, ys => by
    simp [resolveLoop, resolveLoop_trace_append agent xs ys]

/-- C8: IP discovery skips every interface whose name contains the
substring "lo" case-insensitively, returns the first IPv4-typed address
among the remaining interfaces' address lists in order, returns nothing
when the guest-agent query fails, is invalid, or finds no IPv4 address, and
a bulk listResources call with a valid cluster response always succeeds,
each entry carrying its own (possibly absent) discovered address. -/
theorem fetchVMIPAddress_discovery :
    (∀ (iface : AgentInterface) (rest : List AgentInterface),
      isLoopbackName iface.name = true →
        firstNonLoopbackIPv4 (iface :: rest) = firstNonLoopbackIPv4 rest)
    ∧ (∀ ifaces : List AgentInterface,
        firstNonLoopbackIPv4 ifaces = specFirstIPv4 ifaces)
    ∧ fetchVMIPAddress .failed = none
    ∧ fetchVMIPAddress .invalid = none
    ∧ fetchVMIPAddress (.ok []) = none
    ∧ (∀ (rt : ResourceType) (cluster : List RawResource)
        (agent : Option String → Option Nat → AgentQueryResult),
      listResources rt (some cluster) agent =
        .ok ((filterByType rt cluster).map
          (fun r => mkVMDTO r (fetchVMIPAddress (agent r.node r.vmid))))) := by
  refine ⟨?_, firstNonLoopback_eq_spec, rfl, rfl, rfl, ?_⟩
  · intro iface rest hlo
    simp [firstNonLoopbackIPv4, hlo]
  · intro rt cluster agent
    simp [listResources, resolveLoop_fst]

/-- C8 witness: a loopback-named interface is skipped, and guest-agent
discovery on a concrete interface list matches the spec-shaped first IPv4
address. -/
theorem fetchVMIPAddress_discovery_witness :
    firstNonLoopbackIPv4 [loIface, ethIface] = firstNonLoopbackIPv4 [ethIface]
    ∧ fetchVMIPAddress (.ok [loIface, ethIface]) = specFirstIPv4 [loIface, ethIface] :=
  ⟨fetchVMIPAddress_discovery.1 loIface [ethIface] (by decide),
    fetchVMIPAddress_discovery.2.1 [loIface, ethIface]⟩

/-- C9: the per-resource guest-agent queries of listResources are issued
strictly sequentially in listing order: around any resource r of the
filtered listing, the query trace is exactly the earlier resources' trace,
then r's begin and end events, then the later resources' trace — so no
later query begins before r's query has completed. -/
theorem listResources_sequential (rt : ResourceType)
    (agent : Option String → Option Nat → AgentQueryResult)
    (cluster pre post : List RawResource) (r : RawResource)
    (hsplit : filterByType rt cluster = pre ++ r :: post) :
    listResourcesTrace rt cluster agent =
      (resolveLoop agent pre).2
        ++ TraceEvent.queryBegin r.node r.vmid
          :: TraceEvent.queryEnd r.node r.vmid :: (resolveLoop agent post).2 := by
  rw [listResourcesTrace, hsplit, resolveLoop_trace_append]
  simp [resolveLoop]

/-- C9 witness: for three listed resources, the query for resource 2 begins
after resource 1's query ends and ends before resource 3's begins. -/
theorem listResources_sequential_witness :
    listResourcesTrace .qemu [rawVM 1, rawVM 2, rawVM 3] agentAllFail =
      (resolveLoop agentAllFail [rawVM 1]).2
        ++ TraceEvent.queryBegin (rawVM 2).node (rawVM 2).vmid
          :: TraceEvent.queryEnd (rawVM 2).node (rawVM 2).vmid
          :: (resolveLoop agentAllFail [rawVM 3]).2 :=
  listResources_sequential .qemu agentAllFail [rawVM 1, rawVM 2, rawVM 3]
    [rawVM 1] [rawVM 3] (rawVM 2) (by decide)
